import Mathlib

/-!
Verification development for the mechmania soccer engine.

This file gives a shallow embedding, over exact rationals, of the parts of
the engine relevant to the possession state machine, collision resolution,
the tick evaluator, the shared-memory channel's control flow, and the bot
compute-budget accounting, together with theorems about them.

Conventions of the embedding:

* `f32` values are modelled as `ℚ`.  `f32::sqrt` has no exact rational
  counterpart, so every definition that needs it takes an explicit
  `sqrt : ℚ → ℚ` argument; universally quantified theorems hold for every
  such function, and concrete evaluations instantiate it with `ratSqrt`,
  which agrees with real square root on perfect-square rationals (all
  concrete inputs below are chosen so that only perfect squares are taken).
* The thread-local PRNG is modelled by an oracle `Rng` (a family of streams
  indexed by a draw counter that is threaded through the code in program
  order): `flip` models `random_bool(0.5)`, `shuffleP`/`shufflePair` model
  `SliceRandom::shuffle` on player/pair lists, `collDir` models
  `Vec2::from_angle_rad(random_range(0.0..2π))`, and `passRot` models the
  cosine/sine pair of the random pass-error angle drawn in `rotate_deg`.
* Arrays are modelled as lists; `players[i]` is modelled with `List.getD`
  (the source indexes are always in bounds for well-formed states, and
  theorems carry the corresponding hypotheses where they matter).
* The geometry module `game/util.rs` is not part of the provided sources;
  its `Vec2` operations are modelled from the spec (see the doc comments).
-/

namespace Mechmania

/-- Modelled from the spec: `game/util.rs` is absent from the sources; the
spec (§3) defines `Vec2` as a Cartesian float pair with `+`, `−`, scalar
`*`/`/`, `norm`, `dist`, `dist_sq`, `normalize_or_zero`, `from_angle_rad`,
`rotate_deg`. Coordinates are modelled as exact rationals. -/
structure Vec2 where
  x : ℚ
  y : ℚ
deriving DecidableEq, Repr

def Vec2.zero : Vec2 := ⟨0, 0⟩

instance : Add Vec2 := ⟨fun a b => ⟨a.x + b.x, a.y + b.y⟩⟩

instance : Sub Vec2 := ⟨fun a b => ⟨a.x - b.x, a.y - b.y⟩⟩

/-- Scalar multiplication `v * c` (componentwise). -/
def Vec2.scale (v : Vec2) (c : ℚ) : Vec2 := ⟨v.x * c, v.y * c⟩

/-- `Vec2::dist_sq`: squared Euclidean distance. -/
def Vec2.dist_sq (a b : Vec2) : ℚ := (a.x - b.x) ^ 2 + (a.y - b.y) ^ 2

/-- `Vec2::norm_sq`: squared Euclidean norm. -/
def Vec2.norm_sq (v : Vec2) : ℚ := v.x ^ 2 + v.y ^ 2

/-- `Vec2::norm`, with the square root supplied. -/
def Vec2.norm (sqrt : ℚ → ℚ) (v : Vec2) : ℚ := sqrt v.norm_sq

/-- `Vec2::dist`, with the square root supplied. -/
def Vec2.dist (sqrt : ℚ → ℚ) (a b : Vec2) : ℚ := sqrt (a.dist_sq b)

/-- Modelled from the spec: `normalize_or_zero` returns the zero vector for
a zero-length input and `v / ‖v‖` otherwise (spec §3, §4.1; its use at
`action.rs:180` behind a shared reference shows it takes `&self` and
returns a fresh vector). -/
def Vec2.normalize_or_zero (sqrt : ℚ → ℚ) (v : Vec2) : Vec2 :=
  if v.norm sqrt = 0 then Vec2.zero else v.scale (1 / v.norm sqrt)

/-- `Vec2::rotate_deg` applied with a rotation angle whose cosine and sine
are `c` and `s`: the in-place planar rotation matrix. -/
def Vec2.rotate_cs (v : Vec2) (c s : ℚ) : Vec2 :=
  ⟨v.x * c - v.y * s, v.x * s + v.y * c⟩

/-- Fuelled Newton iteration for the integer square root (64 steps suffice
far beyond the magnitudes used here). -/
def isqrtIter (n : ℕ) : ℕ → ℕ → ℕ
  | 0, x => x
  | fuel + 1, x =>
    let next := (x + n / x) / 2
    if next < x then isqrtIter n fuel next else x

/-- Integer square root (floor). -/
def intSqrt (n : ℕ) : ℕ := if n ≤ 1 then n else isqrtIter n 64 n

/-- Exact rational square root on perfect squares: used to instantiate the
`sqrt` parameter on concrete inputs (every concrete distance or norm below
is a perfect-square rational, where this agrees with `f32::sqrt`, which is
correctly rounded and hence exact there). -/
def ratSqrt (q : ℚ) : ℚ :=
  if q < 0 then 0 else (intSqrt q.num.toNat : ℚ) / (intSqrt q.den : ℚ)

/-- `f32::clamp(lo, hi)` on the modelled values. -/
def qclamp (x lo hi : ℚ) : ℚ := if x < lo then lo else if hi < x then hi else x

/-- `EPSILON` (`game/config.rs:3`). -/
def EPSILON : ℚ := 1 / 1000

/-- `COLLISION_MAX_ITERATIONS` (`game/config.rs:4`). -/
def COLLISION_MAX_ITERATIONS : ℕ := 100

/-- `NUM_PLAYERS` (`game/config.rs:5`). -/
def NUM_PLAYERS : ℕ := 4

/-- `Team` (`game/state.rs`). -/
inductive Team where
  | A
  | B
deriving DecidableEq, Repr

/-- `Team::other`. -/
def Team.other : Team → Team
  | Team.A => Team.B
  | Team.B => Team.A

/-- `TeamPair<T>` (`game/state.rs`). -/
structure TeamPair (T : Type) where
  a : T
  b : T
deriving DecidableEq, Repr

/-- `PlayerState` (`game/state.rs`); the id is a `u32`, modelled as `ℕ`. -/
structure PlayerState where
  id : ℕ
  pos : Vec2
  dir : Vec2
  speed : ℚ
  radius : ℚ
  pickup_radius : ℚ
deriving DecidableEq, Repr

/-- `PlayerAction` (`game/state.rs`): `StateOption<Vec2>` is modelled as
`Option Vec2`. -/
structure PlayerAction where
  dir : Vec2
  pass : Option Vec2
deriving DecidableEq, Repr

/-- The default `PlayerAction` (`dir` zero, no pass). -/
def defaultAction : PlayerAction := ⟨Vec2.zero, none⟩

/-- A junk player used as the `List.getD` default where the source indexes
an array (all source indexes are in bounds for well-formed states). -/
def defaultPlayer : PlayerState := ⟨0, Vec2.zero, Vec2.zero, 0, 0, 0⟩

/-- `BallPossessionState` (`game/state.rs`). -/
inductive BallPossessionState where
  | Possessed (owner : ℕ) (team : Team) (capture_ticks : ℕ)
  | Passing (team : Team)
  | Free
deriving DecidableEq, Repr

/-- `BallState` (`game/state.rs`). -/
structure BallState where
  pos : Vec2
  vel : Vec2
  radius : ℚ
deriving DecidableEq, Repr

/-- `BallStagnationState` (`game/state.rs`; `action.rs` uses field name
`tick`). -/
structure BallStagnationState where
  center : Vec2
  tick : ℕ
deriving DecidableEq, Repr

/-- `GameState` (`game/state.rs`); the fixed array `[PlayerState; 2N]` is
modelled as a list (well-formed states have length `2 * NUM_PLAYERS`). -/
structure GameState where
  tick : ℕ
  ball : BallState
  ball_possession : BallPossessionState
  ball_stagnation : BallStagnationState
  players : List PlayerState
  score : TeamPair ℕ
deriving DecidableEq, Repr

/-- `BallConfig` (`game/config.rs`). -/
structure BallConfig where
  friction : ℚ
  radius : ℚ
  capture_ticks : ℕ
  stagnation_radius : ℚ
  stagnation_ticks : ℕ
deriving DecidableEq, Repr

/-- `PlayerConfig` (fields as used by `action.rs` and constructed in
`engine.rs:203`). -/
structure PlayerConfig where
  radius : ℚ
  pickup_radius : ℚ
  speed : ℚ
  pass_speed : ℚ
  pass_error : ℚ
  possession_slowdown : ℚ
deriving DecidableEq, Repr

/-- `FieldConfig` (`game/config.rs`); `u32` dimensions. -/
structure FieldConfig where
  width : ℕ
  height : ℕ
deriving DecidableEq, Repr

/-- `GoalConfig` (fields as used by `action.rs`). -/
structure GoalConfig where
  height : ℕ
  thickness : ℕ
deriving DecidableEq, Repr

/-- `GameConfig` (fields as used by `action.rs` and `engine.rs`). -/
structure GameConfig where
  max_ticks : ℕ
  endgame_ticks : ℕ
  spawn_ball_dist : ℚ
  ball : BallConfig
  player : PlayerConfig
  field : FieldConfig
  goal : GoalConfig
deriving DecidableEq, Repr

/-- `FieldConfig::bottom_right` (the corner `(width, height)`; `util.rs` is
absent, the usage at `action.rs:66` together with the wall checks fixes
it). -/
def FieldConfig.bottom_right (f : FieldConfig) : Vec2 := ⟨(f.width : ℚ), (f.height : ℚ)⟩

/-- `GameState::player_team` (`game/state.rs:190`). -/
def player_team (id : ℕ) : Option Team :=
  if id < NUM_PLAYERS then some Team.A
  else if id < NUM_PLAYERS * 2 then some Team.B
  else none

/-- The slice `players[team]` (`game/state.rs:94`): team A is the first
`NUM_PLAYERS` entries, team B the rest. -/
def teamSlice (players : List PlayerState) : Team → List PlayerState
  | Team.A => players.take NUM_PLAYERS
  | Team.B => players.drop NUM_PLAYERS

/-- The PRNG oracle: each stream is indexed by the position of the draw in
program order (one shared counter models the single thread-local RNG). -/
structure Rng where
  flip : ℕ → Bool
  shuffleP : ℕ → List PlayerState → List PlayerState
  shufflePair : ℕ → List (ℕ × ℕ) → List (ℕ × ℕ)
  collDir : ℕ → Vec2
  passRot : ℕ → ℚ × ℚ

/-- Well-formedness of the player-shuffle stream: a shuffle permutes. -/
def Rng.ShuffleWF (rng : Rng) : Prop :=
  ∀ n l, (rng.shuffleP n l).Perm l

/-- Well-formedness of the pass-rotation stream: `rotate_deg` rotates by a
genuine angle, so the modelled cosine/sine pair lies on the unit circle. -/
def Rng.PassRotWF (rng : Rng) : Prop :=
  ∀ n, ((rng.passRot n).1) ^ 2 + ((rng.passRot n).2) ^ 2 = 1

/-- A concrete oracle for closed evaluations: identity shuffles, constant
`true` flips, zero-angle pass rotation. -/
def rngId : Rng where
  flip := fun _ => true
  shuffleP := fun _ l => l
  shufflePair := fun _ l => l
  collDir := fun _ => ⟨1, 0⟩
  passRot := fun _ => (1, 0)

/-- `f32::total_cmp` on the modelled (finite, non-NaN) values: the order of
the rationals. -/
def total_cmp (a b : ℚ) : Ordering :=
  if a < b then Ordering.lt else if b < a then Ordering.gt else Ordering.eq

/-- The quantity `closer_pickup` compares: `a.pos.dist(c) − a.pickup_radius`
(`action.rs:109`). -/
def pickupVal (sqrt : ℚ → ℚ) (a : PlayerState) (c : Vec2) : ℚ :=
  a.pos.dist sqrt c - a.pickup_radius

/-- `closer_pickup` (`action.rs:107`): the random draw is taken exactly when
both compared values are `≤ 1.0`, and is supplied here as `flip`
(`true` models `random_bool` answering `true`, which yields `Less`). -/
def closer_pickup (sqrt : ℚ → ℚ) (flip : Bool) (a b : PlayerState) (c : Vec2) : Ordering :=
  let pickup_ac := pickupVal sqrt a c
  let pickup_bc := pickupVal sqrt b c
  if pickup_ac ≤ 1 ∧ pickup_bc ≤ 1 then
    if flip then Ordering.lt else Ordering.gt
  else total_cmp pickup_ac pickup_bc

/-- Whether comparing `a` against `b` under `closer_pickup` consumes a
random draw (`action.rs:111`). -/
def tieBranch (sqrt : ℚ → ℚ) (a b : PlayerState) (c : Vec2) : Bool :=
  decide (pickupVal sqrt a c ≤ 1 ∧ pickupVal sqrt b c ≤ 1)

/-- The fold of `Iterator::min_by(closer_pickup)`: `min_by` reduces with
`core::cmp::min_by`, which keeps the earlier element unless the later one
compares strictly smaller; here the new element is passed as
`closer_pickup`'s first argument (the two possible argument orders agree on
the deterministic branch, and in the symmetric random branch they differ
only in which way the coin maps, which the arbitrary `flip` oracle
absorbs).  The flip counter `k` advances only when the comparison takes the
random branch. -/
def minByPickupAux (sqrt : ℚ → ℚ) (rng : Rng) (c : Vec2) :
    PlayerState → List PlayerState → ℕ → PlayerState × ℕ
  | acc, [], k => (acc, k)
  | acc, p :: ps, k =>
    let ord := closer_pickup sqrt (rng.flip k) p acc c
    let k' := if tieBranch sqrt p acc c then k + 1 else k
    minByPickupAux sqrt rng c (if ord = Ordering.lt then p else acc) ps k'

/-- `rand_player_iter(..).min_by(|a, b| closer_pickup(a, b, c))` on an
already-shuffled list: `min_by` of the randomized comparator.  On the empty
list the source `unwrap`s (unreachable, teams always hold `NUM_PLAYERS`
players); the model returns `defaultPlayer` there. -/
def minByPickup (sqrt : ℚ → ℚ) (rng : Rng) (c : Vec2) :
    List PlayerState → ℕ → PlayerState × ℕ
  | [], k => (defaultPlayer, k)
  | p :: ps, k => minByPickupAux sqrt rng c p ps k

/-- Whether the ball is inside a player's pickup circle:
`pos.dist_sq(&ball) <= pickup_radius.powi(2)` (`action.rs:144,199`). -/
def coversBall (p : PlayerState) (ballPos : Vec2) : Bool :=
  decide (p.pos.dist_sq ballPos ≤ p.pickup_radius ^ 2)

/-- The capture-tick sweep at the top of `handle_ball_state`
(`action.rs:136-152`): add one per covering opponent; if none covers and
the counter is positive, subtract one. -/
def captureSweep (players : List PlayerState) (ball : BallState) :
    BallPossessionState → BallPossessionState
  | BallPossessionState.Possessed o t ct =>
    let covering := ((teamSlice players t.other).filter
      (fun p => coversBall p ball.pos)).length
    if covering = 0 then
      BallPossessionState.Possessed o t (if 0 < ct then ct - 1 else ct)
    else BallPossessionState.Possessed o t (ct + covering)
  | s => s

/-- The state threaded through the transition loop of `handle_ball_state`:
possession, ball, the (mutable) action array and the RNG draw counter.  The
player list never changes inside the loop. -/
structure BallLoopState where
  poss : BallPossessionState
  ball : BallState
  actions : List PlayerAction
  k : ℕ
deriving Repr

/-- One iteration of the transition loop of `handle_ball_state`
(`action.rs:154-234`).  Returns the new loop state and the `resolved` flag
(`true` means no transition fired and the loop stops). -/
def ballStep (sqrt : ℚ → ℚ) (rng : Rng) (conf : GameConfig)
    (players : List PlayerState) (s : BallLoopState) : BallLoopState × Bool :=
  match s.poss with
  | BallPossessionState.Possessed owner team capture_ticks =>
    match (s.actions.getD owner defaultAction).pass with
    | some pass =>
      let actions' := s.actions.set owner
        { s.actions.getD owner defaultAction with pass := none }
      let ownerP := players.getD owner defaultPlayer
      let norm := pass.norm sqrt
      if norm = 0 then
        ({ s with actions := actions' }, false)
      else
        let passUnit := pass.scale (1 / norm)
        let normClamped := qclamp norm EPSILON 1
        let passVec := passUnit.scale normClamped
        let cs := rng.passRot s.k
        let passRotated := passVec.rotate_cs cs.1 cs.2
        (⟨BallPossessionState.Passing team,
          { pos := ownerP.pos +
              (ownerP.dir.normalize_or_zero sqrt).scale (ownerP.radius + s.ball.radius),
            vel := passRotated.scale conf.player.pass_speed,
            radius := s.ball.radius },
          actions', s.k + 1⟩, false)
    | none =>
      if conf.ball.capture_ticks < capture_ticks then
        let shuffled := rng.shuffleP s.k (teamSlice players team.other)
        let sel := minByPickup sqrt rng s.ball.pos shuffled (s.k + 1)
        (⟨BallPossessionState.Possessed sel.1.id team.other 0,
          s.ball, s.actions, sel.2⟩, false)
      else (s, true)
  | BallPossessionState.Passing team =>
    let shuffledOpp := rng.shuffleP s.k (teamSlice players team.other)
    let selOpp := minByPickup sqrt rng s.ball.pos shuffledOpp (s.k + 1)
    if coversBall selOpp.1 s.ball.pos then
      (⟨BallPossessionState.Possessed selOpp.1.id team.other 0,
        s.ball, s.actions, selOpp.2⟩, false)
    else
      let shuffledOwn := rng.shuffleP selOpp.2 (teamSlice players team)
      let selOwn := minByPickup sqrt rng s.ball.pos shuffledOwn (selOpp.2 + 1)
      if coversBall selOwn.1 s.ball.pos then
        ({ s with k := selOwn.2 }, true)
      else
        (⟨BallPossessionState.Free, s.ball, s.actions, selOwn.2⟩, false)
  | BallPossessionState.Free =>
    let shuffled := rng.shuffleP s.k players
    let sel := minByPickup sqrt rng s.ball.pos shuffled (s.k + 1)
    if coversBall sel.1 s.ball.pos then
      (⟨BallPossessionState.Possessed sel.1.id
          ((player_team sel.1.id).getD Team.A) 0,
        s.ball, s.actions, sel.2⟩, false)
    else ({ s with k := sel.2 }, true)

/-- The `while !resolved` transition loop, with fuel.  `ballLoop` returns
the final loop state and whether the fixed point was reached within the
fuel (theorem `handle_ball_state_terminates` shows `ballFuel` always
suffices, so the fueled function computes the source's unbounded loop). -/
def ballLoop (sqrt : ℚ → ℚ) (rng : Rng) (conf : GameConfig)
    (players : List PlayerState) : ℕ → BallLoopState → BallLoopState × Bool
  | 0, s => (s, false)
  | n + 1, s =>
    match ballStep sqrt rng conf players s with
    | (s', true) => (s', true)
    | (s', false) => ballLoop sqrt rng conf players n s'

/-- The number of pending passes in an action array. -/
def passCount (actions : List PlayerAction) : ℕ :=
  (actions.filter (fun a => a.pass.isSome)).length

/-- Fuel that provably suffices for the transition loop. -/
def ballFuel (actions : List PlayerAction) : ℕ := 4 * passCount actions + 4

/-- `handle_ball_state` (`action.rs:121-235`): the capture sweep followed by
the transition loop.  Returns the updated state, action array and draw
counter. -/
def handle_ball_state (sqrt : ℚ → ℚ) (rng : Rng) (state : GameState)
    (conf : GameConfig) (actions : List PlayerAction) (k : ℕ) :
    GameState × List PlayerAction × ℕ :=
  let poss0 := captureSweep state.players state.ball state.ball_possession
  let r := ballLoop sqrt rng conf state.players (ballFuel actions)
    ⟨poss0, state.ball, actions, k⟩
  ({ state with ball_possession := r.1.poss, ball := r.1.ball },
   r.1.actions, r.1.k)

/-- Phase 0 of `eval_tick` (`action.rs:327-331`) applied to one action:
`dir` is replaced by its direction scaled by its norm clamped to `[0,1]`.
The source line `action.pass.option().map(|pass| pass.normalize_or_zero())`
computes a normalized copy and discards it (`normalize_or_zero` takes
`&self` and returns a fresh vector), so `pass` is left unchanged. -/
def sanitizeTickAction (sqrt : ℚ → ℚ) (a : PlayerAction) : PlayerAction :=
  let norm := a.dir.norm sqrt
  { dir := (a.dir.normalize_or_zero sqrt).scale (qclamp norm 0 1),
    pass := a.pass }

/-- Phase 2 of `eval_tick` (`action.rs:335-343`): set `player.dir` to the
action direction scaled by the possession slowdown when the player owns the
ball, then advance `player.pos` by `player.dir * player.speed`. -/
def movePlayers (conf : GameConfig) (poss : BallPossessionState)
    (players : List PlayerState) (actions : List PlayerAction) : List PlayerState :=
  List.zipWith (fun p a =>
    let speed_modifier :=
      match poss with
      | BallPossessionState.Possessed owner _ _ =>
        if owner = p.id then conf.player.possession_slowdown else 1
      | _ => 1
    let dir' := a.dir.scale speed_modifier
    { p with dir := dir', pos := p.pos + dir'.scale p.speed }) players actions

/-- The unordered index pairs `(i, j)`, `i < j < n`, generated at
`action.rs:35-39`. -/
def pairsList (n : ℕ) : List (ℕ × ℕ) :=
  (List.range n).flatMap (fun i => (List.range n).filterMap
    (fun j => if i < j then some (i, j) else none))

/-- One pair resolution of the collision phase (`action.rs:46-64`): if the
two players overlap, push them apart symmetrically by half the overlap plus
`EPSILON` along the connecting direction (drawing a random direction when
they coincide).  Returns the updated list, draw counter and `resolved`
flag. -/
def resolvePair (sqrt : ℚ → ℚ) (rng : Rng) (players : List PlayerState)
    (k : ℕ) (resolved : Bool) (ij : ℕ × ℕ) : List PlayerState × ℕ × Bool :=
  let p1 := players.getD ij.1 defaultPlayer
  let p2 := players.getD ij.2 defaultPlayer
  let dist_sq := p1.pos.dist_sq p2.pos
  let min_dist := p1.radius + p2.radius
  if dist_sq < min_dist ^ 2 then
    let dist := sqrt dist_sq
    let diffVec := p2.pos - p1.pos
    let consume := decide (diffVec.norm sqrt = 0)
    let dv := if diffVec.norm sqrt = 0 then rng.collDir k
      else diffVec.scale (1 / diffVec.norm sqrt)
    let k' := if consume then k + 1 else k
    let diff := min_dist - dist
    let correction := dv.scale (diff * (1 / 2) + EPSILON)
    let players' := (players.set ij.1 { p1 with pos := p1.pos - correction }).set
      ij.2 { p2 with pos := p2.pos + correction }
    (players', k', false)
  else (players, k, resolved)

/-- The pair sweep of one collision iteration: fold `resolvePair` over the
(shuffled) pair list. -/
def pairPhase (sqrt : ℚ → ℚ) (rng : Rng) :
    List (ℕ × ℕ) → List PlayerState → ℕ → Bool → List PlayerState × ℕ × Bool
  | [], players, k, resolved => (players, k, resolved)
  | ij :: rest, players, k, resolved =>
    let r := resolvePair sqrt rng players k resolved ij
    pairPhase sqrt rng rest r.1 r.2.1 r.2.2

/-- One coordinate of the wall clamp (`action.rs:69-86`): the low-wall check
runs first, then the high-wall check on its result; the flag records whether
either fired.  The x and y pairs of checks are independent in the source. -/
def clampCoord (limit r x : ℚ) : ℚ × Bool :=
  let low := if x - r < 0 then (r + EPSILON, true) else (x, false)
  if low.1 + r > limit then (limit - r - EPSILON, true) else low

/-- The wall clamp for one player (`action.rs:69-86`): the four checks run
in order and each sets the offending coordinate just inside the wall. -/
def clampWall (br : Vec2) (p : PlayerState) : PlayerState × Bool :=
  let cx := clampCoord br.x p.radius p.pos.x
  let cy := clampCoord br.y p.radius p.pos.y
  ({ p with pos := ⟨cx.1, cy.1⟩ }, cx.2 || cy.2)

/-- The wall sweep of one collision iteration: clamp every player, reporting
whether any correction fired. -/
def wallPhase (br : Vec2) : List PlayerState → List PlayerState × Bool
  | [] => ([], false)
  | p :: ps =>
    let c := clampWall br p
    let rest := wallPhase br ps
    (c.1 :: rest.1, c.2 || rest.2)

/-- The iteration loop of `handle_player_collision` (`action.rs:41-89`):
shuffle the pair list, run the pair sweep then the wall sweep, and repeat
while a correction fired, up to the remaining fuel (the source caps at
`COLLISION_MAX_ITERATIONS`). -/
def collisionLoop (sqrt : ℚ → ℚ) (rng : Rng) (br : Vec2) :
    ℕ → List (ℕ × ℕ) → List PlayerState → ℕ → List PlayerState × ℕ
  | 0, _, players, k => (players, k)
  | n + 1, pairs, players, k =>
    let pairs' := rng.shufflePair k pairs
    let pr := pairPhase sqrt rng pairs' players (k + 1) true
    let wr := wallPhase br pr.1
    if pr.2.2 && !wr.2 then (wr.1, pr.2.1)
    else collisionLoop sqrt rng br n pairs' wr.1 pr.2.1

/-- `handle_player_collision` (`action.rs:26-90`). -/
def handle_player_collision (sqrt : ℚ → ℚ) (rng : Rng) (conf : GameConfig)
    (players : List PlayerState) (k : ℕ) : List PlayerState × ℕ :=
  collisionLoop sqrt rng conf.field.bottom_right COLLISION_MAX_ITERATIONS
    (pairsList (NUM_PLAYERS * 2)) players k

/-- Phase 4 of `eval_tick` (`action.rs:347-376`): a possessed ball is slaved
to its owner's attachment point with zero velocity; otherwise it integrates
with friction and reflects off the walls with coefficient `−friction²`. -/
def ballPhase (sqrt : ℚ → ℚ) (conf : GameConfig) (poss : BallPossessionState)
    (players : List PlayerState) (ball : BallState) : BallState :=
  match poss with
  | BallPossessionState.Possessed owner _ _ =>
    let ow := players.getD owner defaultPlayer
    { pos := ow.pos + (ow.dir.normalize_or_zero sqrt).scale (ow.radius + ball.radius),
      vel := Vec2.zero,
      radius := ball.radius }
  | _ =>
    let pos0 := ball.pos + ball.vel
    let vel0 := ball.vel.scale conf.ball.friction
    let left := ball.radius
    let right := (conf.field.width : ℚ) - ball.radius
    let top := ball.radius
    let bottom := (conf.field.height : ℚ) - ball.radius
    let (px1, vx1) := if pos0.x < left
      then (left + EPSILON, vel0.x * (-(conf.ball.friction ^ 2))) else (pos0.x, vel0.x)
    let (px2, vx2) := if px1 > right
      then (right - EPSILON, vx1 * (-(conf.ball.friction ^ 2))) else (px1, vx1)
    let (py1, vy1) := if pos0.y < top
      then (top + EPSILON, vel0.y * (-(conf.ball.friction ^ 2))) else (pos0.y, vel0.y)
    let (py2, vy2) := if py1 > bottom
      then (bottom - EPSILON, vy1 * (-(conf.ball.friction ^ 2))) else (py1, vy1)
    { pos := ⟨px2, py2⟩, vel := ⟨vx2, vy2⟩, radius := ball.radius }

/-- `handle_scoring` (`action.rs:255-276`): if the ball's y is inside the
goal opening (a half-open range) and its x has crossed either goal line by
its radius, increment the scoring team's count and report a goal. -/
def handle_scoring (state : GameState) (conf : GameConfig) : GameState × Bool :=
  let cy := (conf.field.height : ℚ) / 2
  let h := (conf.goal.height : ℚ)
  if cy - h / 2 ≤ state.ball.pos.y ∧ state.ball.pos.y < cy + h / 2 then
    if state.ball.pos.x - state.ball.radius ≤ (conf.goal.thickness : ℚ) then
      ({ state with score := { state.score with b := state.score.b + 1 } }, true)
    else if state.ball.pos.x + state.ball.radius ≥
        ((conf.field.width : ℚ) - (conf.goal.thickness : ℚ)) then
      ({ state with score := { state.score with a := state.score.a + 1 } }, true)
    else (state, false)
  else (state, false)

/-- `handle_ball_stagnation` (`action.rs:237-253`). -/
def handle_ball_stagnation (state : GameState) (conf : GameConfig) : GameState × Bool :=
  let stag :=
    if state.ball.pos.dist_sq state.ball_stagnation.center ≤
        conf.ball.stagnation_radius ^ 2 then
      { state.ball_stagnation with tick := state.ball_stagnation.tick + 1 }
    else { center := state.ball.pos, tick := 0 }
  ({ state with ball_stagnation := stag },
   decide (conf.ball.stagnation_ticks ≤ stag.tick))

/-- Phases 0 through 4 of `eval_tick` plus the tick increment
(`action.rs:326-378`): sanitize the actions, run the ball state machine,
move the players, resolve collisions, move the ball, and increment the tick
counter.  Returns the updated state and the RNG draw counter. -/
def evalPhases (sqrt : ℚ → ℚ) (rng : Rng) (state : GameState)
    (conf : GameConfig) (actions : List PlayerAction) (k : ℕ) :
    GameState × ℕ :=
  let actions0 := actions.map (sanitizeTickAction sqrt)
  let r1 := handle_ball_state sqrt rng state conf actions0 k
  let state1 := r1.1
  let players2 := movePlayers conf state1.ball_possession state1.players r1.2.1
  let r3 := handle_player_collision sqrt rng conf players2 r1.2.2
  let ball4 := ballPhase sqrt conf state1.ball_possession r3.1 state1.ball
  ({ state1 with players := r3.1, ball := ball4, tick := state1.tick + 1 },
   r3.2)

/-- `eval_tick` (`action.rs:321-389`): the phases of `evalPhases`, then the
scoring and stagnation checks (stagnation runs only when no goal was
scored).  Returns the final state, the `needs_reset` flag, and the RNG draw
counter. -/
def eval_tick (sqrt : ℚ → ℚ) (rng : Rng) (state : GameState)
    (conf : GameConfig) (actions : List PlayerAction) (k : ℕ) :
    GameState × Bool × ℕ :=
  let r4 := evalPhases sqrt rng state conf actions k
  let r5 := handle_scoring r4.1 conf
  if r5.2 then (r5.1, true, r4.2)
  else
    let r6 := handle_ball_stagnation r5.1 conf
    (r6.1, r6.2, r4.2)

/-- `EngineStatus::Ready` (`ipc.rs:20`). -/
def READY : ℕ := 0

/-- `EngineStatus::Busy` (`ipc.rs:21`). -/
def BUSY : ℕ := 1

/-- `EngineStatus::Finished` (`ipc.rs:22`). -/
def FINISHED : ℕ := 2

/-- The possible results of `BotChannel::msg` (`ipc.rs:120-131`), with
`success` for `Ok`. -/
inductive MsgResult where
  | success
  | malformed
  | sizeMismatch
  | alignmentError
  | timeout
deriving DecidableEq, Repr

/-- The environment a `BotChannel::msg` call runs against: the sync byte it
observes at entry, whether the budgeted poll for `BUSY` expires, the mapped
length against `size_of::<Shm>()`, the address remainder modulo the
alignment, and the union discriminant byte it reads after the poll against
`T::response_discriminant()`. -/
structure MsgEnv where
  entrySync : ℕ
  timesOut : Bool
  len : ℕ
  shmSize : ℕ
  addrRem : ℕ
  discriminant : ℕ
  respDisc : ℕ
deriving DecidableEq, Repr

/-- What a `BotChannel::msg` call produces: its result, the value of the
sync byte when it returns (as last written or observed by the engine), and
whether the request message was written into the union slot. -/
structure MsgOutcome where
  result : MsgResult
  finalSync : ℕ
  wroteMsg : Bool
deriving DecidableEq, Repr

/-- The control flow of `BotChannel::msg` (`ipc.rs:184-236`): reject with
`Malformed` (writing nothing) unless `sync == BUSY` at entry; write the
message and store `sync := READY`; on poll expiry store `sync := BUSY` and
return `Timeout`; after a completed poll (which observed `sync == BUSY`)
check size, alignment and the response discriminant in that order. -/
def botChannelMsg (e : MsgEnv) : MsgOutcome :=
  if e.entrySync ≠ BUSY then ⟨MsgResult.malformed, e.entrySync, false⟩
  else if e.timesOut then ⟨MsgResult.timeout, BUSY, true⟩
  else if e.len ≠ e.shmSize then ⟨MsgResult.sizeMismatch, BUSY, true⟩
  else if e.addrRem ≠ 0 then ⟨MsgResult.alignmentError, BUSY, true⟩
  else if e.discriminant ≠ e.respDisc then ⟨MsgResult.malformed, BUSY, true⟩
  else ⟨MsgResult.success, BUSY, true⟩

/-- `TOTAL_COMPUTE_TICKS` (`engine.rs:23`). -/
def TOTAL_COMPUTE_TICKS : ℕ := 100000

/-- `DELAY_TICKS` (`engine.rs:24`). -/
def DELAY_TICKS : ℕ := 2000

/-- The per-request budget update of `BotManager::reset`/`tick`
(`engine.rs:149-153`, `179-183`), on the `u32` budget and elapsed
baseline-tick counts (subtraction saturates exactly as the guarded source
expressions do). -/
def budgetUpdate (ticks elapsed : ℕ) : ℕ :=
  if elapsed ≤ DELAY_TICKS then
    min TOTAL_COMPUTE_TICKS (ticks + DELAY_TICKS - elapsed)
  else ticks - min ticks (elapsed - DELAY_TICKS)

/-- The `GameConfig` the driver constructs (`engine.rs:192-222`). -/
def confC : GameConfig where
  max_ticks := 7200
  endgame_ticks := 1000
  spawn_ball_dist := 200
  ball := ⟨99 / 100, 5, 50, 30, 150⟩
  player := ⟨10, 25, 4, 12, 10, 3 / 4⟩
  field := ⟨1000, 600⟩
  goal := ⟨150, 5⟩

/-- A player with the driver config's radii and speed, zero direction. -/
def mkPlayer (id : ℕ) (x y : ℚ) : PlayerState :=
  ⟨id, ⟨x, y⟩, Vec2.zero, 4, 10, 25⟩

/-- Eight all-default actions. -/
def actionsNone : List PlayerAction := List.replicate 8 defaultAction

/-- Ball at `(100, 100)` used by the possession fixtures. -/
def ballC : BallState := ⟨⟨100, 100⟩, Vec2.zero, 5⟩

/-- Possession fixture: team A far from the ball; among team B, player 4 at
distance 20 covers the ball (pickup value −5), player 5 at distance 51/2
does not cover it (pickup value 1/2, inside the `≤ 1` randomization
threshold), players 6 and 7 are far. -/
def playersC1 : List PlayerState :=
  [mkPlayer 0 500 100, mkPlayer 1 520 100, mkPlayer 2 540 100,
   mkPlayer 3 560 100, mkPlayer 4 120 100, mkPlayer 5 100 (251 / 2),
   mkPlayer 6 300 100, mkPlayer 7 340 100]

/-- Pass fixture: the owner's action carries the non-unit pass `(1/2, 0)`. -/
def actionsC4 : List PlayerAction :=
  ⟨Vec2.zero, some ⟨1 / 2, 0⟩⟩ :: List.replicate 7 defaultAction

/-- Players spread on a grid, all far from the ball, each other and the
walls. -/
def playersGrid : List PlayerState :=
  [mkPlayer 0 200 100, mkPlayer 1 400 100, mkPlayer 2 600 100,
   mkPlayer 3 800 100, mkPlayer 4 200 500, mkPlayer 5 400 500,
   mkPlayer 6 600 500, mkPlayer 7 800 500]

/-- Scoring fixture: free ball just inside the left goal mouth, players far
away. -/
def stateC7 : GameState where
  tick := 0
  ball := ⟨⟨8, 300⟩, Vec2.zero, 5⟩
  ball_possession := BallPossessionState.Free
  ball_stagnation := ⟨⟨8, 300⟩, 0⟩
  players := playersGrid
  score := ⟨0, 0⟩

/-- Possession-retention fixture: player 0 owns the ball, everyone far from
everyone. -/
def stateC2 : GameState where
  tick := 0
  ball := ⟨⟨109, 112⟩, Vec2.zero, 5⟩
  ball_possession := BallPossessionState.Possessed 0 Team.A 0
  ball_stagnation := ⟨⟨109, 112⟩, 0⟩
  players := [mkPlayer 0 100 100, mkPlayer 1 400 100, mkPlayer 2 600 100,
    mkPlayer 3 800 100, mkPlayer 4 200 500, mkPlayer 5 400 500,
    mkPlayer 6 600 500, mkPlayer 7 800 500]
  score := ⟨0, 0⟩

/-- Actions for the possession-retention fixture: the owner walks with the
unit direction `(3/5, 4/5)`, everyone else is idle. -/
def actionsC2 : List PlayerAction :=
  ⟨⟨3 / 5, 4 / 5⟩, none⟩ :: List.replicate 7 defaultAction

/-- The attachment point of the ball to a player (spec §3; `action.rs:180`
and `action.rs:350`). -/
def attachPos (sqrt : ℚ → ℚ) (p : PlayerState) (ballRadius : ℚ) : Vec2 :=
  p.pos + (p.dir.normalize_or_zero sqrt).scale (p.radius + ballRadius)

/-- A player's diameter plus the clamp margin fits in both field
dimensions (the condition under which the wall clamp lands strictly
inside). -/
def RadiusFits (conf : GameConfig) (p : PlayerState) : Prop :=
  2 * p.radius + EPSILON ≤ (conf.field.width : ℚ) ∧
  2 * p.radius + EPSILON ≤ (conf.field.height : ℚ)

/-- A player lies within `[radius, dim − radius]` on both axes. -/
def PlayerInBounds (conf : GameConfig) (p : PlayerState) : Prop :=
  p.radius ≤ p.pos.x ∧ p.pos.x ≤ (conf.field.width : ℚ) - p.radius ∧
  p.radius ≤ p.pos.y ∧ p.pos.y ≤ (conf.field.height : ℚ) - p.radius

/-- The rank of a possession state in the termination measure of the
transition loop: a transfer-pending `Possessed` can still fire a transfer
(rank 3), `Passing` can fall to `Free` or a capture (rank 2), `Free` can
fall to a capture (rank 1), and a quiescent `Possessed` can only fire by
consuming a pass. -/
def rankPoss (conf : GameConfig) : BallPossessionState → ℕ
  | BallPossessionState.Possessed _ _ ct =>
    if conf.ball.capture_ticks < ct then 3 else 0
  | BallPossessionState.Passing _ => 2
  | BallPossessionState.Free => 1

/-- Termination measure for the transition loop of `handle_ball_state`:
every non-resolved iteration either consumes a pass (dropping the measure
by at least one despite any rank change) or strictly drops the rank. -/
def ballMeasure (conf : GameConfig) (s : BallLoopState) : ℕ :=
  4 * passCount s.actions + rankPoss conf s.poss

/-- `r` is a near-minimizer of `(distance to c) − pickup_radius` relative to
`q`: either `r`'s value is no larger, or both values lie at or below the
`closer_pickup` randomization threshold `1.0`, in which case the comparison
that discarded the smaller one was a coin flip. -/
def NearMin (sqrt : ℚ → ℚ) (c : Vec2) (r q : PlayerState) : Prop :=
  pickupVal sqrt r c ≤ pickupVal sqrt q c ∨
  (pickupVal sqrt r c ≤ 1 ∧ pickupVal sqrt q c ≤ 1)

instance (conf : GameConfig) (p : PlayerState) : Decidable (RadiusFits conf p) := by
  unfold RadiusFits
  infer_instance

instance (conf : GameConfig) (p : PlayerState) : Decidable (PlayerInBounds conf p) := by
  unfold PlayerInBounds
  infer_instance

instance (sqrt : ℚ → ℚ) (c : Vec2) (r q : PlayerState) :
    Decidable (NearMin sqrt c r q) := by
  unfold NearMin
  infer_instance

/-!  ## Theorems  -/

theorem handle_scoring_preserves (st : GameState) (conf : GameConfig) :
    (handle_scoring st conf).1.ball = st.ball ∧
    (handle_scoring st conf).1.ball_possession = st.ball_possession ∧
    (handle_scoring st conf).1.players = st.players ∧
    (handle_scoring st conf).1.tick = st.tick := by
  unfold handle_scoring
  dsimp only
  split_ifs <;> exact ⟨rfl, rfl, rfl, rfl⟩

theorem handle_ball_stagnation_preserves (st : GameState) (conf : GameConfig) :
    (handle_ball_stagnation st conf).1.ball = st.ball ∧
    (handle_ball_stagnation st conf).1.ball_possession = st.ball_possession ∧
    (handle_ball_stagnation st conf).1.players = st.players ∧
    (handle_ball_stagnation st conf).1.tick = st.tick :=
  ⟨rfl, rfl, rfl, rfl⟩

theorem eval_tick_state_eq (sqrt : ℚ → ℚ) (rng : Rng) (state : GameState)
    (conf : GameConfig) (actions : List PlayerAction) (k : ℕ) :
    (eval_tick sqrt rng state conf actions k).1.ball =
      (evalPhases sqrt rng state conf actions k).1.ball ∧
    (eval_tick sqrt rng state conf actions k).1.ball_possession =
      (evalPhases sqrt rng state conf actions k).1.ball_possession ∧
    (eval_tick sqrt rng state conf actions k).1.players =
      (evalPhases sqrt rng state conf actions k).1.players ∧
    (eval_tick sqrt rng state conf actions k).1.tick =
      (evalPhases sqrt rng state conf actions k).1.tick := by
  unfold eval_tick
  dsimp only
  split
  · exact handle_scoring_preserves _ _
  · refine ⟨?_, ?_, ?_, ?_⟩ <;>
      simp [(handle_ball_stagnation_preserves _ _).1,
        (handle_ball_stagnation_preserves _ _).2.1,
        (handle_ball_stagnation_preserves _ _).2.2.1,
        (handle_ball_stagnation_preserves _ _).2.2.2,
        (handle_scoring_preserves _ _).1,
        (handle_scoring_preserves _ _).2.1,
        (handle_scoring_preserves _ _).2.2.1,
        (handle_scoring_preserves _ _).2.2.2]

theorem evalPhases_attached (sqrt : ℚ → ℚ) (rng : Rng) (state : GameState)
    (conf : GameConfig) (actions : List PlayerAction) (k : ℕ) (o : ℕ)
    (t : Team) (ct : ℕ)
    (h : (evalPhases sqrt rng state conf actions k).1.ball_possession =
      BallPossessionState.Possessed o t ct) :
    (evalPhases sqrt rng state conf actions k).1.ball.pos =
      attachPos sqrt
        ((evalPhases sqrt rng state conf actions k).1.players.getD o defaultPlayer)
        (evalPhases sqrt rng state conf actions k).1.ball.radius ∧
    (evalPhases sqrt rng state conf actions k).1.ball.vel = Vec2.zero := by
  unfold evalPhases at h ⊢
  dsimp only at h ⊢
  rw [h]
  exact ⟨rfl, rfl⟩

/-- C2: at the end of every `eval_tick` whose resulting possession is
`Possessed{owner}`, the ball sits exactly at the owner's attachment point
`owner.pos + owner.dir.normalize_or_zero() * (owner.radius + ball.radius)`
with zero velocity (exact equality, hence within `2 · EPSILON`). -/
theorem eval_tick_possessed_ball_attached (sqrt : ℚ → ℚ) (rng : Rng)
    (state : GameState) (conf : GameConfig) (actions : List PlayerAction)
    (k : ℕ) (o : ℕ) (t : Team) (ct : ℕ)
    (h : (eval_tick sqrt rng state conf actions k).1.ball_possession =
      BallPossessionState.Possessed o t ct) :
    (eval_tick sqrt rng state conf actions k).1.ball.pos =
      attachPos sqrt
        ((eval_tick sqrt rng state conf actions k).1.players.getD o defaultPlayer)
        (eval_tick sqrt rng state conf actions k).1.ball.radius ∧
    (eval_tick sqrt rng state conf actions k).1.ball.vel = Vec2.zero := by
  obtain ⟨hb, hp, hpl, -⟩ := eval_tick_state_eq sqrt rng state conf actions k
  rw [hp] at h
  rw [hb, hpl]
  exact evalPhases_attached sqrt rng state conf actions k o t ct h

set_option maxRecDepth 100000 in
/-- Witness for C2 at a concrete possessed tick. -/
theorem eval_tick_possessed_ball_attached_witness :
    (eval_tick ratSqrt rngId stateC2 confC actionsC2 0).1.ball.pos =
      attachPos ratSqrt
        ((eval_tick ratSqrt rngId stateC2 confC actionsC2 0).1.players.getD 0 defaultPlayer)
        (eval_tick ratSqrt rngId stateC2 confC actionsC2 0).1.ball.radius ∧
    (eval_tick ratSqrt rngId stateC2 confC actionsC2 0).1.ball.vel = Vec2.zero :=
  eval_tick_possessed_ball_attached ratSqrt rngId stateC2 confC actionsC2 0
    0 Team.A 0 (by with_unfolding_all decide)

set_option maxRecDepth 100000 in
/-- C7 counterexample: a concrete `eval_tick` call that returns `true` (a
goal for B is scored, the score increments) and still increments
`state.tick` from 0 to 1, because `state.tick += 1` runs before the scoring
check (`action.rs:378-380`). -/
theorem eval_tick_true_still_increments_cex :
    (eval_tick ratSqrt rngId stateC7 confC actionsNone 0).2.1 = true ∧
    (eval_tick ratSqrt rngId stateC7 confC actionsNone 0).1.score.b = 1 ∧
    stateC7.tick = 0 ∧
    (eval_tick ratSqrt rngId stateC7 confC actionsNone 0).1.tick = 1 := by
  with_unfolding_all decide

/-- C7 as amended: `eval_tick` increments `state.tick` by exactly one on
every call, whether it returns `true` or `false`. -/
theorem eval_tick_always_increments (sqrt : ℚ → ℚ) (rng : Rng)
    (state : GameState) (conf : GameConfig) (actions : List PlayerAction)
    (k : ℕ) :
    (eval_tick sqrt rng state conf actions k).1.tick = state.tick + 1 := by
  rw [(eval_tick_state_eq sqrt rng state conf actions k).2.2.2]
  rfl

/-- C5: on the failing input, the Phase 0 sanitizer of `eval_tick` clamps
`dir` as specified but leaves a non-unit `pass` vector untouched — the
source statement `action.pass.option().map(|pass| pass.normalize_or_zero())`
discards its result. -/
theorem sanitize_pass_unchanged :
    (sanitizeTickAction ratSqrt ⟨⟨3, 4⟩, some ⟨2, 0⟩⟩).dir = ⟨3 / 5, 4 / 5⟩ ∧
    (sanitizeTickAction ratSqrt ⟨⟨3, 4⟩, some ⟨2, 0⟩⟩).pass = some ⟨2, 0⟩ ∧
    Vec2.norm_sq ⟨2, 0⟩ ≠ 1 := by with_unfolding_all decide

/-- C8 counterexample: a `msg` call entered while `sync == READY` returns
`Malformed` and leaves the sync byte at `READY`, so `sync == BUSY` does
*not* hold after every `msg` call. -/
theorem msg_entry_malformed_sync_cex :
    (botChannelMsg ⟨READY, false, 64, 64, 0, 3, 3⟩).result = MsgResult.malformed ∧
    (botChannelMsg ⟨READY, false, 64, 64, 0, 3, 3⟩).finalSync ≠ BUSY := by decide

/-- C8 as amended: `msg` returns `Malformed` without writing when entered
with `sync ≠ BUSY` (leaving the sync byte unchanged, hence not `BUSY`); on
poll expiry it stores `sync := BUSY` and returns `Timeout`; after a
completed poll with matching size and alignment a wrong response
discriminant yields `Malformed`; and `sync == BUSY` holds after every call
that observed `BUSY` at entry. -/
theorem msg_behavior (e : MsgEnv) :
    (e.entrySync ≠ BUSY →
      botChannelMsg e = ⟨MsgResult.malformed, e.entrySync, false⟩) ∧
    (e.entrySync = BUSY → e.timesOut = true →
      botChannelMsg e = ⟨MsgResult.timeout, BUSY, true⟩) ∧
    (e.entrySync = BUSY → e.timesOut = false → e.len = e.shmSize →
      e.addrRem = 0 → e.discriminant ≠ e.respDisc →
      (botChannelMsg e).result = MsgResult.malformed) ∧
    (e.entrySync = BUSY → (botChannelMsg e).finalSync = BUSY) := by
  unfold botChannelMsg
  refine ⟨?_, ?_, ?_, ?_⟩ <;> intros <;> split_ifs <;> simp_all

/-- Witness for the amended C8 at a concrete timed-out call. -/
theorem msg_behavior_witness :
    botChannelMsg ⟨BUSY, true, 64, 64, 0, 3, 3⟩ =
      ⟨MsgResult.timeout, BUSY, true⟩ :=
  (msg_behavior ⟨BUSY, true, 64, 64, 0, 3, 3⟩).2.1 rfl rfl

/-- C9 counterexample: the budget update applied to a zero budget with zero
elapsed baseline-ticks regenerates the budget to `DELAY_TICKS = 2000`, so
`ticks = 0` is not absorbing. -/
theorem budget_zero_not_absorbing_cex :
    budgetUpdate 0 0 = 2000 ∧ budgetUpdate 0 0 ≠ 0 := by decide

/-- C9 as amended: a zero budget is preserved by the update exactly when the
request's elapsed time is at least `DELAY_TICKS`; for shorter requests
(such as one that times out immediately) the budget regenerates to
`DELAY_TICKS − elapsed`. -/
theorem budget_zero_absorbing_iff (e : ℕ) :
    budgetUpdate 0 e = 0 ↔ DELAY_TICKS ≤ e := by
  unfold budgetUpdate DELAY_TICKS TOTAL_COMPUTE_TICKS
  split_ifs with h <;> omega

theorem Vec2.norm_sq_scale (v : Vec2) (c : ℚ) :
    (v.scale c).norm_sq = c ^ 2 * v.norm_sq := by
  simp only [Vec2.scale, Vec2.norm_sq]
  ring

theorem Vec2.norm_sq_rotate (v : Vec2) (c s : ℚ) :
    (v.rotate_cs c s).norm_sq = (c ^ 2 + s ^ 2) * v.norm_sq := by
  simp only [Vec2.rotate_cs, Vec2.norm_sq]
  ring

set_option maxRecDepth 100000 in
/-- C4 counterexample: a possessed owner issues the pass `p = (1/2, 0)`
(`‖p‖ = 1/2 ≠ 0`, so the pass fires; the zero pass-error draw of `rngId` is
inside `±pass_error`), and the resulting ball velocity is `(6, 0)`: its
speed is `6 = ‖p‖ · pass_speed`, not `pass_speed = 12` — the source scales
the pass direction by `norm.clamp(EPSILON, 1.0)` (`action.rs:172-174`). -/
theorem pass_speed_cex :
    (actionsC4.getD 0 defaultAction).pass = some ⟨1 / 2, 0⟩ ∧
    Vec2.norm ratSqrt ⟨1 / 2, 0⟩ ≠ 0 ∧
    (ballStep ratSqrt rngId confC playersC1
      ⟨BallPossessionState.Possessed 0 Team.A 0, ballC, actionsC4, 0⟩).1.ball.vel =
      ⟨6, 0⟩ ∧
    Vec2.norm_sq ⟨6, 0⟩ = 36 ∧ confC.player.pass_speed ^ 2 = 144 := by
  with_unfolding_all decide

theorem pass_some_lt_length (l : List PlayerAction) (i : ℕ) (p : Vec2)
    (h : (l.getD i defaultAction).pass = some p) : i < l.length := by
  by_contra hge
  rw [List.getD_eq_default _ _ (Nat.le_of_not_lt hge)] at h
  exact Option.noConfusion h

/-- C4 as amended: a pending pass `p` with `‖p‖ ≠ 0` clears the owner's
pass, transitions to `Passing{team}`, repositions the ball at the owner's
attachment point, and sets the ball velocity to the perturbed pass
direction scaled by `‖p‖.clamp(EPSILON, 1) · pass_speed`; in particular the
ball speed is `pass_speed` only when `‖p‖ ≥ 1`, not for every `p`. -/
theorem pass_kinematics (sqrt : ℚ → ℚ) (rng : Rng) (conf : GameConfig)
    (players : List PlayerState) (ball : BallState)
    (actions : List PlayerAction) (k : ℕ) (owner : ℕ) (team : Team)
    (ct : ℕ) (p : Vec2)
    (hp : (actions.getD owner defaultAction).pass = some p)
    (hn : Vec2.norm sqrt p ≠ 0)
    (hrot : rng.PassRotWF)
    (hsq : (Vec2.norm sqrt p) ^ 2 = p.norm_sq) :
    (ballStep sqrt rng conf players
      ⟨BallPossessionState.Possessed owner team ct, ball, actions, k⟩).2 = false ∧
    (ballStep sqrt rng conf players
      ⟨BallPossessionState.Possessed owner team ct, ball, actions, k⟩).1.poss =
      BallPossessionState.Passing team ∧
    ((ballStep sqrt rng conf players
      ⟨BallPossessionState.Possessed owner team ct, ball, actions, k⟩).1.actions.getD
        owner defaultAction).pass = none ∧
    (ballStep sqrt rng conf players
      ⟨BallPossessionState.Possessed owner team ct, ball, actions, k⟩).1.ball.pos =
      attachPos sqrt (players.getD owner defaultPlayer) ball.radius ∧
    (ballStep sqrt rng conf players
      ⟨BallPossessionState.Possessed owner team ct, ball, actions, k⟩).1.ball.vel.norm_sq =
      (qclamp (Vec2.norm sqrt p) EPSILON 1) ^ 2 * conf.player.pass_speed ^ 2 := by
  have hlt : owner < actions.length := pass_some_lt_length actions owner p hp
  simp only [ballStep, hp, if_neg hn, attachPos]
  refine ⟨trivial, trivial, ?_, trivial, ?_⟩
  · rw [List.getD_eq_getElem?_getD, List.getElem?_set_self (by simpa using hlt)]
    rfl
  · rw [Vec2.norm_sq_scale, Vec2.norm_sq_rotate, hrot k, Vec2.norm_sq_scale,
      Vec2.norm_sq_scale, ← hsq]
    field_simp
    ring

/-- Witness for the amended C4 at the concrete pass `(1/2, 0)`. -/
theorem pass_kinematics_witness :
    (ballStep ratSqrt rngId confC playersC1
      ⟨BallPossessionState.Possessed 0 Team.A 0, ballC, actionsC4, 0⟩).2 = false ∧
    (ballStep ratSqrt rngId confC playersC1
      ⟨BallPossessionState.Possessed 0 Team.A 0, ballC, actionsC4, 0⟩).1.poss =
      BallPossessionState.Passing Team.A ∧
    ((ballStep ratSqrt rngId confC playersC1
      ⟨BallPossessionState.Possessed 0 Team.A 0, ballC, actionsC4, 0⟩).1.actions.getD
        0 defaultAction).pass = none ∧
    (ballStep ratSqrt rngId confC playersC1
      ⟨BallPossessionState.Possessed 0 Team.A 0, ballC, actionsC4, 0⟩).1.ball.pos =
      attachPos ratSqrt (playersC1.getD 0 defaultPlayer) ballC.radius ∧
    (ballStep ratSqrt rngId confC playersC1
      ⟨BallPossessionState.Possessed 0 Team.A 0, ballC, actionsC4, 0⟩).1.ball.vel.norm_sq =
      (qclamp (Vec2.norm ratSqrt ⟨1 / 2, 0⟩) EPSILON 1) ^ 2 *
        confC.player.pass_speed ^ 2 :=
  pass_kinematics ratSqrt rngId confC playersC1 ballC actionsC4 0 0 Team.A 0
    ⟨1 / 2, 0⟩ (by with_unfolding_all decide) (by with_unfolding_all decide)
    (fun _ => by norm_num [rngId]) (by with_unfolding_all decide)

theorem passCount_cons (a : PlayerAction) (l : List PlayerAction) :
    passCount (a :: l) = (if a.pass.isSome then 1 else 0) + passCount l := by
  simp only [passCount, List.filter_cons]
  split <;> simp [Nat.add_comm]

theorem passCount_set_none (l : List PlayerAction) (i : ℕ) (p : Vec2)
    (h : (l.getD i defaultAction).pass = some p) :
    passCount (l.set i { l.getD i defaultAction with pass := none }) + 1 =
      passCount l := by
  induction l generalizing i with
  | nil => exact absurd h (by simp [List.getD, defaultAction])
  | cons a t ih =>
    cases i with
    | zero =>
      simp only [List.getD_cons_zero] at h ⊢
      simp [List.set, passCount_cons, h, Nat.add_comm]
    | succ j =>
      simp only [List.getD_cons_succ] at h ⊢
      simp only [List.set, passCount_cons]
      have hj := ih j h
      dsimp only at hj ⊢
      omega

theorem rankPoss_le_three (conf : GameConfig) (s : BallPossessionState) :
    rankPoss conf s ≤ 3 := by
  cases s with
  | Possessed o t ct => simp only [rankPoss]; split <;> omega
  | Passing t => exact (by norm_num [rankPoss])
  | Free => exact (by norm_num [rankPoss])

theorem ballStep_decreases (sqrt : ℚ → ℚ) (rng : Rng) (conf : GameConfig)
    (players : List PlayerState) (s s' : BallLoopState)
    (h : ballStep sqrt rng conf players s = (s', false)) :
    ballMeasure conf s' < ballMeasure conf s := by
  obtain ⟨poss, ball, actions, k⟩ := s
  cases poss with
  | Possessed owner team ct =>
    rcases hpass : (actions.getD owner defaultAction).pass with - | p
    · simp only [ballStep, hpass] at h
      split at h
      · injection h with h1 h2
        rw [← h1]
        simp only [ballMeasure, rankPoss]
        rw [if_neg (Nat.not_lt_zero _), if_pos (by assumption)]
        omega
      · injection h with h1 h2
        exact absurd h2 (by simp)
    · simp only [ballStep, hpass] at h
      have hcount := passCount_set_none actions owner p hpass
      dsimp only at hcount
      split at h
      · injection h with h1 h2
        rw [← h1]
        have h3 := rankPoss_le_three conf
          (BallPossessionState.Possessed owner team ct)
        simp only [ballMeasure]
        omega
      · injection h with h1 h2
        rw [← h1]
        have h3 := rankPoss_le_three conf
          (BallPossessionState.Possessed owner team ct)
        simp only [ballMeasure, rankPoss] at h3 ⊢
        omega
  | Passing team =>
    simp only [ballStep] at h
    split at h
    · injection h with h1 h2
      rw [← h1]
      simp only [ballMeasure, rankPoss]
      rw [if_neg (Nat.not_lt_zero _)]
      omega
    · split at h
      · injection h with h1 h2
        exact absurd h2 (by simp)
      · injection h with h1 h2
        rw [← h1]
        simp [ballMeasure, rankPoss]
  | Free =>
    simp only [ballStep] at h
    split at h
    · injection h with h1 h2
      rw [← h1]
      simp only [ballMeasure, rankPoss]
      rw [if_neg (Nat.not_lt_zero _)]
      omega
    · injection h with h1 h2
      exact absurd h2 (by simp)

theorem ballLoop_reaches_fixpoint (sqrt : ℚ → ℚ) (rng : Rng)
    (conf : GameConfig) (players : List PlayerState) :
    ∀ fuel s, ballMeasure conf s < fuel →
      (ballLoop sqrt rng conf players fuel s).2 = true := by
  intro fuel
  induction fuel with
  | zero => intro s hs; exact absurd hs (Nat.not_lt_zero _)
  | succ n ih =>
    intro s hs
    rcases hstep : ballStep sqrt rng conf players s with ⟨s', b⟩
    cases b
    · have hdec := ballStep_decreases sqrt rng conf players s s' hstep
      simp only [ballLoop, hstep]
      exact ih s' (by omega)
    · simp [ballLoop, hstep]

/-- C10: the transition loop of `handle_ball_state` always reaches its
fixed point — within `4 · passCount + 4` iterations it reports `resolved`,
because every transition either consumes a pending pass or strictly drops
the possession rank, so `eval_tick` always returns. -/
theorem handle_ball_state_terminates (sqrt : ℚ → ℚ) (rng : Rng)
    (conf : GameConfig) (players : List PlayerState) (s : BallLoopState) :
    (ballLoop sqrt rng conf players (ballFuel s.actions) s).2 = true := by
  apply ballLoop_reaches_fixpoint
  have := rankPoss_le_three conf s.poss
  simp only [ballMeasure, ballFuel]
  omega

theorem total_cmp_eq_lt_iff (a b : ℚ) : total_cmp a b = Ordering.lt ↔ a < b := by
  unfold total_cmp
  split_ifs with h1 h2 <;> simp_all

theorem minByPickupAux_cons (sqrt : ℚ → ℚ) (rng : Rng) (c : Vec2)
    (acc p : PlayerState) (ps : List PlayerState) (k : ℕ) :
    minByPickupAux sqrt rng c acc (p :: ps) k =
      minByPickupAux sqrt rng c
        (if closer_pickup sqrt (rng.flip k) p acc c = Ordering.lt then p else acc)
        ps (if tieBranch sqrt p acc c then k + 1 else k) := rfl

theorem minByPickupAux_mem (sqrt : ℚ → ℚ) (rng : Rng) (c : Vec2) :
    ∀ (l : List PlayerState) (acc : PlayerState) (k : ℕ),
      (minByPickupAux sqrt rng c acc l k).1 ∈ acc :: l := by
  intro l
  induction l with
  | nil => intro acc k; simp [minByPickupAux]
  | cons p ps ih =>
    intro acc k
    rw [minByPickupAux_cons]
    by_cases hord : closer_pickup sqrt (rng.flip k) p acc c = Ordering.lt
    · rw [if_pos hord]
      exact List.mem_cons_of_mem _ (ih p _)
    · rw [if_neg hord]
      rcases List.mem_cons.1 (ih acc _) with h | h
      · rw [h]; exact List.mem_cons_self _ _
      · exact List.mem_cons_of_mem _ (List.mem_cons_of_mem _ h)

theorem minByPickupAux_nearMin (sqrt : ℚ → ℚ) (rng : Rng) (c : Vec2) :
    ∀ (l : List PlayerState) (acc : PlayerState) (k : ℕ) (q : PlayerState),
      q ∈ acc :: l → NearMin sqrt c (minByPickupAux sqrt rng c acc l k).1 q := by
  intro l
  induction l with
  | nil =>
    intro acc k q hq
    rcases List.mem_cons.1 hq with h | h
    · subst h; exact Or.inl le_rfl
    · exact absurd h (List.not_mem_nil _)
  | cons p ps ih =>
    intro acc k q hq
    rw [minByPickupAux_cons]
    by_cases hord : closer_pickup sqrt (rng.flip k) p acc c = Ordering.lt
    · rw [if_pos hord]
      have hres := ih p (if tieBranch sqrt p acc c then k + 1 else k)
      have haccp : NearMin sqrt c
          (minByPickupAux sqrt rng c p ps
            (if tieBranch sqrt p acc c then k + 1 else k)).1 acc := by
        by_cases htb : pickupVal sqrt p c ≤ 1 ∧ pickupVal sqrt acc c ≤ 1
        · rcases hres p (List.mem_cons_self _ _) with h | h
          · exact Or.inr ⟨le_trans h htb.1, htb.2⟩
          · exact Or.inr ⟨h.1, htb.2⟩
        · have hcp : closer_pickup sqrt (rng.flip k) p acc c =
              total_cmp (pickupVal sqrt p c) (pickupVal sqrt acc c) := by
            unfold closer_pickup
            rw [if_neg htb]
          have hlt : pickupVal sqrt p c < pickupVal sqrt acc c :=
            (total_cmp_eq_lt_iff _ _).1 (hcp ▸ hord)
          rcases hres p (List.mem_cons_self _ _) with h | h
          · exact Or.inl (le_trans h (le_of_lt hlt))
          · have hacc1 : ¬ pickupVal sqrt acc c ≤ 1 := fun hc =>
              htb ⟨le_of_lt (lt_of_lt_of_le hlt hc), hc⟩
            exact Or.inl (le_trans h.1 (le_of_lt (not_le.1 hacc1)))
      rcases List.mem_cons.1 hq with h | hq'
      · rw [h]; exact haccp
      · exact hres q hq'
    · rw [if_neg hord]
      have hres := ih acc (if tieBranch sqrt p acc c then k + 1 else k)
      have hp : NearMin sqrt c
          (minByPickupAux sqrt rng c acc ps
            (if tieBranch sqrt p acc c then k + 1 else k)).1 p := by
        by_cases htb : pickupVal sqrt p c ≤ 1 ∧ pickupVal sqrt acc c ≤ 1
        · rcases hres acc (List.mem_cons_self _ _) with h | h
          · exact Or.inr ⟨le_trans h htb.2, htb.1⟩
          · exact Or.inr ⟨h.1, htb.1⟩
        · have hcp : closer_pickup sqrt (rng.flip k) p acc c =
              total_cmp (pickupVal sqrt p c) (pickupVal sqrt acc c) := by
            unfold closer_pickup
            rw [if_neg htb]
          have hle : pickupVal sqrt acc c ≤ pickupVal sqrt p c :=
            le_of_not_lt (fun hlt =>
              hord (hcp ▸ (total_cmp_eq_lt_iff _ _).2 hlt))
          rcases hres acc (List.mem_cons_self _ _) with h | h
          · exact Or.inl (le_trans h hle)
          · have hp1 : ¬ pickupVal sqrt p c ≤ 1 := fun hc =>
              htb ⟨hc, le_trans hle hc⟩
            exact Or.inl (le_trans h.1 (le_of_lt (not_le.1 hp1)))
      rcases List.mem_cons.1 hq with h | hq'
      · rw [h]; exact hres acc (List.mem_cons_self _ _)
      · rcases List.mem_cons.1 hq' with h | hq''
        · rw [h]; exact hp
        · exact hres q (List.mem_cons_of_mem _ hq'')

theorem minByPickup_sel (sqrt : ℚ → ℚ) (rng : Rng) (c : Vec2)
    (l : List PlayerState) (k : ℕ) (hne : l ≠ []) :
    (minByPickup sqrt rng c l k).1 ∈ l ∧
    ∀ q ∈ l, NearMin sqrt c (minByPickup sqrt rng c l k).1 q := by
  cases l with
  | nil => exact absurd rfl hne
  | cons p ps =>
    exact ⟨minByPickupAux_mem sqrt rng c ps p k,
      fun q hq => minByPickupAux_nearMin sqrt rng c ps p k q hq⟩

theorem Team.other_ne (t : Team) : t.other ≠ t := by cases t <;> decide

set_option maxRecDepth 100000 in
/-- C6 counterexample: with capture_ticks 51 > 50, the transfer goes to
player 5, whose `(distance − pickup_radius)` value exceeds player 4's by
more than `1.0` (−5 against 0.5): the randomization in `closer_pickup`
fires whenever *both* values are `≤ 1.0`, not only when they differ by at
most `1.0`, so the chosen opponent need not be the smallest even outside
near-ties as the claim defines them. -/
theorem capture_transfer_cex :
    pickupVal ratSqrt (playersC1.getD 4 defaultPlayer) ballC.pos + 1 <
      pickupVal ratSqrt (playersC1.getD 5 defaultPlayer) ballC.pos ∧
    playersC1.getD 4 defaultPlayer ∈ teamSlice playersC1 Team.B ∧
    playersC1.getD 5 defaultPlayer ∈ teamSlice playersC1 Team.B ∧
    confC.ball.capture_ticks = 50 ∧
    (ballStep ratSqrt rngId confC playersC1
      ⟨BallPossessionState.Possessed 0 Team.A 51, ballC, actionsNone, 0⟩).1.poss =
      BallPossessionState.Possessed 5 Team.B 0 := by
  with_unfolding_all decide

/-- C6 as amended: when `capture_ticks` exceeds the config threshold and no
pass is pending, possession transfers to an opponent chosen by the
randomized `min_by` under `closer_pickup`, with team set to the other team
and `capture_ticks = 0`; the chosen opponent's `(distance − pickup_radius)`
is minimal among the opponents except that any opponent with a smaller
value can lose the comparison only when both values lie at or below `1.0`
(the `closer_pickup` randomization threshold). -/
theorem capture_transfer (sqrt : ℚ → ℚ) (rng : Rng) (conf : GameConfig)
    (players : List PlayerState) (ball : BallState)
    (actions : List PlayerAction) (k : ℕ) (owner : ℕ) (team : Team) (ct : ℕ)
    (hwf : rng.ShuffleWF)
    (hct : conf.ball.capture_ticks < ct)
    (hpass : (actions.getD owner defaultAction).pass = none)
    (hne : teamSlice players team.other ≠ []) :
    (ballStep sqrt rng conf players
      ⟨BallPossessionState.Possessed owner team ct, ball, actions, k⟩).2 = false ∧
    ∃ sel ∈ teamSlice players team.other,
      (ballStep sqrt rng conf players
        ⟨BallPossessionState.Possessed owner team ct, ball, actions, k⟩).1.poss =
        BallPossessionState.Possessed sel.id team.other 0 ∧
      ∀ q ∈ teamSlice players team.other, NearMin sqrt ball.pos sel q := by
  have hperm := hwf k (teamSlice players team.other)
  have hne' : rng.shuffleP k (teamSlice players team.other) ≠ [] := by
    intro h0
    rw [h0] at hperm
    exact hne (List.Perm.nil_eq hperm).symm
  obtain ⟨hmem, hnm⟩ := minByPickup_sel sqrt rng ball.pos
    (rng.shuffleP k (teamSlice players team.other)) (k + 1) hne'
  refine ⟨?_, ⟨(minByPickup sqrt rng ball.pos
      (rng.shuffleP k (teamSlice players team.other)) (k + 1)).1, ?_, ?_, ?_⟩⟩
  · simp only [ballStep, hpass]
    rw [if_pos hct]
  · exact hperm.mem_iff.1 hmem
  · simp only [ballStep, hpass]
    rw [if_pos hct]
  · intro q hq
    exact hnm q (hperm.mem_iff.2 hq)

/-- Witness for the amended C6 at the concrete transfer fixture. -/
theorem capture_transfer_witness :
    (ballStep ratSqrt rngId confC playersC1
      ⟨BallPossessionState.Possessed 0 Team.A 51, ballC, actionsNone, 0⟩).2 = false :=
  (capture_transfer ratSqrt rngId confC playersC1 ballC actionsNone 0 0 Team.A 51
    (fun _ l => List.Perm.refl l) (by decide) (by decide)
    (by with_unfolding_all decide)).1

set_option maxRecDepth 100000 in
/-- C1 counterexample: from `Passing{A}` with opponent 4 covering the ball,
the randomized `min_by` (both compared pickup values `≤ 1.0`, coin flip
taken) selects opponent 5, who does not cover it, so the state falls
through to `Free` even though an opponent's pickup circle covers the ball —
the claimed guaranteed transition to `Possessed` does not occur. -/
theorem passing_release_cex :
    coversBall (playersC1.getD 4 defaultPlayer) ballC.pos = true ∧
    playersC1.getD 4 defaultPlayer ∈ teamSlice playersC1 Team.B ∧
    (ballStep ratSqrt rngId confC playersC1
      ⟨BallPossessionState.Passing Team.A, ballC, actionsNone, 0⟩).1.poss =
      BallPossessionState.Free := by
  with_unfolding_all decide

/-- C1 as amended: from `Passing{team}` the loop examines only the opponent
and teammate selected by the randomized `min_by` under `closer_pickup`:
every transition to `Possessed` installs a covering opponent with the
other team and `capture_ticks = 0`; a transition to `Free` exhibits a
selected teammate whose pickup circle does not cover the ball; and the
passing team never captures its own pass directly from `Passing`. -/
theorem passing_release (sqrt : ℚ → ℚ) (rng : Rng) (conf : GameConfig)
    (players : List PlayerState) (ball : BallState)
    (actions : List PlayerAction) (k : ℕ) (team : Team)
    (hwf : rng.ShuffleWF)
    (hneO : teamSlice players team.other ≠ [])
    (hneT : teamSlice players team ≠ []) :
    (∀ o t ct, (ballStep sqrt rng conf players
        ⟨BallPossessionState.Passing team, ball, actions, k⟩).1.poss =
        BallPossessionState.Possessed o t ct →
      t = team.other ∧ ct = 0 ∧
      ∃ pl ∈ teamSlice players team.other,
        pl.id = o ∧ coversBall pl ball.pos = true) ∧
    ((ballStep sqrt rng conf players
        ⟨BallPossessionState.Passing team, ball, actions, k⟩).1.poss =
        BallPossessionState.Free →
      ∃ pl ∈ teamSlice players team, coversBall pl ball.pos = false) ∧
    (∀ o ct, (ballStep sqrt rng conf players
        ⟨BallPossessionState.Passing team, ball, actions, k⟩).1.poss ≠
        BallPossessionState.Possessed o team ct) := by
  have hpermO := hwf k (teamSlice players team.other)
  have hneO' : rng.shuffleP k (teamSlice players team.other) ≠ [] := by
    intro h0
    rw [h0] at hpermO
    exact hneO (List.Perm.nil_eq hpermO).symm
  obtain ⟨hmemO, -⟩ := minByPickup_sel sqrt rng ball.pos
    (rng.shuffleP k (teamSlice players team.other)) (k + 1) hneO'
  simp only [ballStep]
  by_cases hcov : coversBall (minByPickup sqrt rng ball.pos
      (rng.shuffleP k (teamSlice players team.other)) (k + 1)).1 ball.pos = true
  · rw [if_pos hcov]
    refine ⟨?_, ?_, ?_⟩
    · intro o t ct heq
      injection heq with h1 h2 h3
      exact ⟨h2.symm, h3.symm,
        (minByPickup sqrt rng ball.pos
          (rng.shuffleP k (teamSlice players team.other)) (k + 1)).1,
        hpermO.mem_iff.1 hmemO, h1, hcov⟩
    · intro heq
      exact absurd heq (by simp)
    · intro o ct heq
      injection heq with h1 h2 h3
      exact Team.other_ne team h2
  · rw [if_neg hcov]
    have hpermT := hwf (minByPickup sqrt rng ball.pos
      (rng.shuffleP k (teamSlice players team.other)) (k + 1)).2
      (teamSlice players team)
    have hneT' : rng.shuffleP (minByPickup sqrt rng ball.pos
        (rng.shuffleP k (teamSlice players team.other)) (k + 1)).2
        (teamSlice players team) ≠ [] := by
      intro h0
      rw [h0] at hpermT
      exact hneT (List.Perm.nil_eq hpermT).symm
    obtain ⟨hmemT, -⟩ := minByPickup_sel sqrt rng ball.pos
      (rng.shuffleP (minByPickup sqrt rng ball.pos
        (rng.shuffleP k (teamSlice players team.other)) (k + 1)).2
        (teamSlice players team))
      ((minByPickup sqrt rng ball.pos
        (rng.shuffleP k (teamSlice players team.other)) (k + 1)).2 + 1) hneT'
    by_cases hcovT : coversBall (minByPickup sqrt rng ball.pos
        (rng.shuffleP (minByPickup sqrt rng ball.pos
          (rng.shuffleP k (teamSlice players team.other)) (k + 1)).2
          (teamSlice players team))
        ((minByPickup sqrt rng ball.pos
          (rng.shuffleP k (teamSlice players team.other)) (k + 1)).2 + 1)).1
        ball.pos = true
    · rw [if_pos hcovT]
      refine ⟨?_, ?_, ?_⟩
      · intro o t ct heq
        exact absurd heq (by simp)
      · intro heq
        exact absurd heq (by simp)
      · intro o ct heq
        exact absurd heq (by simp)
    · rw [if_neg hcovT]
      refine ⟨?_, ?_, ?_⟩
      · intro o t ct heq
        exact absurd heq (by simp)
      · intro heq
        refine ⟨(minByPickup sqrt rng ball.pos
          (rng.shuffleP (minByPickup sqrt rng ball.pos
            (rng.shuffleP k (teamSlice players team.other)) (k + 1)).2
            (teamSlice players team))
          ((minByPickup sqrt rng ball.pos
            (rng.shuffleP k (teamSlice players team.other)) (k + 1)).2 + 1)).1,
          hpermT.mem_iff.1 hmemT, ?_⟩
        exact Bool.eq_false_iff.2 (fun hc => hcovT hc)
      · intro o ct heq
        exact absurd heq (by simp)

/-- Witness for the amended C1 at the concrete passing fixture: the passing
team A cannot be the new owner's team. -/
theorem passing_release_witness :
    (ballStep ratSqrt rngId confC playersC1
      ⟨BallPossessionState.Passing Team.A, ballC, actionsNone, 0⟩).1.poss ≠
      BallPossessionState.Possessed 4 Team.A 0 :=
  (passing_release ratSqrt rngId confC playersC1 ballC actionsNone 0 Team.A
    (fun _ l => List.Perm.refl l) (by with_unfolding_all decide)
    (by with_unfolding_all decide)).2.2 4 0

theorem EPSILON_pos : (0 : ℚ) < EPSILON := by norm_num [EPSILON]

theorem getD_mem_of_lt {α : Type} (l : List α) (i : ℕ) (d : α)
    (h : i < l.length) : l.getD i d ∈ l := by
  rw [List.getD_eq_getElem?_getD, List.getElem?_eq_getElem h]
  exact List.getElem_mem h

theorem clampCoord_bounds (limit r x : ℚ) (h : 2 * r + EPSILON ≤ limit) :
    r ≤ (clampCoord limit r x).1 ∧ (clampCoord limit r x).1 ≤ limit - r := by
  have he := EPSILON_pos
  unfold clampCoord
  dsimp only
  split_ifs with h1 h2 h3 <;> constructor <;> dsimp only <;> linarith

theorem clampWall_fits (conf : GameConfig) (p : PlayerState)
    (h : RadiusFits conf p) :
    PlayerInBounds conf (clampWall conf.field.bottom_right p).1 ∧
    RadiusFits conf (clampWall conf.field.bottom_right p).1 := by
  obtain ⟨hx, hy⟩ := h
  have hcx := clampCoord_bounds ((conf.field.width : ℚ)) p.radius p.pos.x hx
  have hcy := clampCoord_bounds ((conf.field.height : ℚ)) p.radius p.pos.y hy
  exact ⟨⟨hcx.1, hcx.2, hcy.1, hcy.2⟩, hx, hy⟩

theorem wallPhase_inBounds (conf : GameConfig) :
    ∀ l : List PlayerState, (∀ p ∈ l, RadiusFits conf p) →
      ∀ q ∈ (wallPhase conf.field.bottom_right l).1,
        PlayerInBounds conf q ∧ RadiusFits conf q := by
  intro l
  induction l with
  | nil =>
    intro _ q hq
    simp only [wallPhase] at hq
    exact absurd hq (List.not_mem_nil _)
  | cons p ps ih =>
    intro hl q hq
    simp only [wallPhase] at hq
    rcases List.mem_cons.1 hq with h | h
    · rw [h]
      exact clampWall_fits conf p (hl p (List.mem_cons_self _ _))
    · exact ih (fun r hr => hl r (List.mem_cons_of_mem _ hr)) q h

theorem fits_resolvePair (conf : GameConfig) (sqrt : ℚ → ℚ) (rng : Rng)
    (players : List PlayerState) (k : ℕ) (resolved : Bool) (ij : ℕ × ℕ)
    (hd : RadiusFits conf defaultPlayer)
    (hl : ∀ p ∈ players, RadiusFits conf p) :
    ∀ q ∈ (resolvePair sqrt rng players k resolved ij).1,
      RadiusFits conf q := by
  have hget : ∀ i : ℕ, RadiusFits conf (players.getD i defaultPlayer) := by
    intro i
    rcases Nat.lt_or_ge i players.length with hi | hi
    · exact hl _ (getD_mem_of_lt players i defaultPlayer hi)
    · rw [List.getD_eq_default _ _ hi]
      exact hd
  intro q hq
  unfold resolvePair at hq
  dsimp only at hq
  split at hq
  · rcases List.mem_or_eq_of_mem_set hq with hq1 | hq1
    · rcases List.mem_or_eq_of_mem_set hq1 with hq2 | hq2
      · exact hl q hq2
      · rw [hq2]
        exact hget ij.1
    · rw [hq1]
      exact hget ij.2
  · exact hl q hq

theorem fits_pairPhase (conf : GameConfig) (sqrt : ℚ → ℚ) (rng : Rng)
    (hd : RadiusFits conf defaultPlayer) :
    ∀ (pairs : List (ℕ × ℕ)) (players : List PlayerState) (k : ℕ)
      (resolved : Bool), (∀ p ∈ players, RadiusFits conf p) →
      ∀ q ∈ (pairPhase sqrt rng pairs players k resolved).1,
        RadiusFits conf q := by
  intro pairs
  induction pairs with
  | nil =>
    intro players k resolved hl q hq
    simp only [pairPhase] at hq
    exact hl q hq
  | cons ij rest ih =>
    intro players k resolved hl q hq
    simp only [pairPhase] at hq
    exact ih _ _ _
      (fits_resolvePair conf sqrt rng players k resolved ij hd hl) q hq

theorem fits_movePlayers (conf : GameConfig) (poss : BallPossessionState) :
    ∀ (players : List PlayerState) (acts : List PlayerAction),
      (∀ p ∈ players, RadiusFits conf p) →
      ∀ q ∈ movePlayers conf poss players acts, RadiusFits conf q := by
  intro players
  induction players with
  | nil =>
    intro acts h q hq
    simp [movePlayers] at hq
  | cons p ps ih =>
    intro acts h q hq
    cases acts with
    | nil => simp [movePlayers] at hq
    | cons a as =>
      simp only [movePlayers, List.zipWith_cons_cons] at hq
      rcases List.mem_cons.1 hq with hh | hh
      · rw [hh]
        exact h p (List.mem_cons_self _ _)
      · exact ih as (fun r hr => h r (List.mem_cons_of_mem _ hr)) q hh

theorem collisionLoop_inv (conf : GameConfig) (sqrt : ℚ → ℚ) (rng : Rng)
    (hd : RadiusFits conf defaultPlayer) :
    ∀ (fuel : ℕ) (pairs : List (ℕ × ℕ)) (players : List PlayerState) (k : ℕ),
      (∀ p ∈ players, RadiusFits conf p ∧ PlayerInBounds conf p) →
      ∀ q ∈ (collisionLoop sqrt rng conf.field.bottom_right fuel pairs players k).1,
        RadiusFits conf q ∧ PlayerInBounds conf q := by
  intro fuel
  induction fuel with
  | zero =>
    intro pairs players k hl q hq
    simp only [collisionLoop] at hq
    exact hl q hq
  | succ n ih =>
    intro pairs players k hl q hq
    simp only [collisionLoop] at hq
    have hfits := fits_pairPhase conf sqrt rng hd (rng.shufflePair k pairs)
      players (k + 1) true (fun p hp => (hl p hp).1)
    have hwall := wallPhase_inBounds conf _ hfits
    split at hq
    · exact ⟨(hwall q hq).2, (hwall q hq).1⟩
    · exact ih _ _ _ (fun p hp => ⟨(hwall p hp).2, (hwall p hp).1⟩) q hq

theorem collisionLoop_entry (conf : GameConfig) (sqrt : ℚ → ℚ) (rng : Rng)
    (hd : RadiusFits conf defaultPlayer) (n : ℕ) (pairs : List (ℕ × ℕ))
    (players : List PlayerState) (k : ℕ)
    (hl : ∀ p ∈ players, RadiusFits conf p) :
    ∀ q ∈ (collisionLoop sqrt rng conf.field.bottom_right (n + 1) pairs players k).1,
      PlayerInBounds conf q := by
  intro q hq
  simp only [collisionLoop] at hq
  have hfits := fits_pairPhase conf sqrt rng hd (rng.shufflePair k pairs)
    players (k + 1) true hl
  have hwall := wallPhase_inBounds conf _ hfits
  split at hq
  · exact (hwall q hq).1
  · exact (collisionLoop_inv conf sqrt rng hd n _ _ _
      (fun p hp => ⟨(hwall p hp).2, (hwall p hp).1⟩) q hq).2

theorem handle_ball_state_players (sqrt : ℚ → ℚ) (rng : Rng)
    (state : GameState) (conf : GameConfig) (actions : List PlayerAction)
    (k : ℕ) :
    (handle_ball_state sqrt rng state conf actions k).1.players =
      state.players := rfl

/-- C3: after every `eval_tick` call on a state whose players' diameters
(plus the clamp margin `EPSILON`) fit in the field of a non-degenerate
config, every player lies within `[radius, dim − radius]` on both axes:
the wall clamp is the final step of each collision iteration and no later
phase moves players. -/
theorem eval_tick_players_in_bounds (sqrt : ℚ → ℚ) (rng : Rng)
    (state : GameState) (conf : GameConfig) (actions : List PlayerAction)
    (k : ℕ)
    (hfit : ∀ p ∈ state.players, RadiusFits conf p)
    (hW : 1 ≤ conf.field.width) (hH : 1 ≤ conf.field.height) :
    ∀ p ∈ (eval_tick sqrt rng state conf actions k).1.players,
      PlayerInBounds conf p := by
  have hd : RadiusFits conf defaultPlayer := by
    refine ⟨?_, ?_⟩
    · show 2 * (0 : ℚ) + EPSILON ≤ (conf.field.width : ℚ)
      have h1 : (1 : ℚ) ≤ (conf.field.width : ℚ) := Nat.one_le_cast.2 hW
      norm_num [EPSILON]
      linarith
    · show 2 * (0 : ℚ) + EPSILON ≤ (conf.field.height : ℚ)
      have h1 : (1 : ℚ) ≤ (conf.field.height : ℚ) := Nat.one_le_cast.2 hH
      norm_num [EPSILON]
      linarith
  intro p hp
  rw [(eval_tick_state_eq sqrt rng state conf actions k).2.2.1] at hp
  unfold evalPhases at hp
  dsimp only at hp
  rw [handle_ball_state_players] at hp
  unfold handle_player_collision at hp
  have hmove := fits_movePlayers conf
    (handle_ball_state sqrt rng state conf
      (actions.map (sanitizeTickAction sqrt)) k).1.ball_possession
    state.players
    (handle_ball_state sqrt rng state conf
      (actions.map (sanitizeTickAction sqrt)) k).2.1 hfit
  exact collisionLoop_entry conf sqrt rng hd 99 _ _ _ hmove p hp

set_option maxRecDepth 1000000 in
/-- Witness for C3 at the concrete scoring fixture. -/
theorem eval_tick_players_in_bounds_witness :
    PlayerInBounds confC
      ((eval_tick ratSqrt rngId stateC7 confC actionsNone 0).1.players.getD 0
        defaultPlayer) :=
  eval_tick_players_in_bounds ratSqrt rngId stateC7 confC actionsNone 0
    (by with_unfolding_all decide) (by decide) (by decide) _
    (by with_unfolding_all decide)

/-- Witness for the amended C7 at the concrete scoring fixture. -/
theorem eval_tick_always_increments_witness :
    (eval_tick ratSqrt rngId stateC7 confC actionsNone 0).1.tick =
      stateC7.tick + 1 :=
  eval_tick_always_increments ratSqrt rngId stateC7 confC actionsNone 0

/-- Witness for the amended C9 at the boundary elapsed time. -/
theorem budget_zero_absorbing_iff_witness : budgetUpdate 0 2000 = 0 :=
  (budget_zero_absorbing_iff 2000).2 (by decide)

/-- Witness for C10 at a concrete loop state. -/
theorem handle_ball_state_terminates_witness :
    (ballLoop ratSqrt rngId confC playersC1 (ballFuel actionsNone)
      ⟨BallPossessionState.Free, ballC, actionsNone, 0⟩).2 = true :=
  handle_ball_state_terminates ratSqrt rngId confC playersC1
    ⟨BallPossessionState.Free, ballC, actionsNone, 0⟩

end Mechmania
